import Mathlib

/-!
Verification of the return/advantage estimator, loss assembler, adaptive-KL
controller and training-order logic of the PPO agent in
`src/tf_agents/agents/ppo/ppo_agent.py`.

Tensors along the time dimension are modelled as lists of rationals (the
idealised real arithmetic of the float tensors); external collaborators
(the exp function of the math library, the value/actor networks, the
normalizer statistics) are abstracted as function or list parameters.
Fallible tensorflow operations (shape assertions, `tf.case` with
`exclusive=True`, broadcasting `tf.add`) are modelled with `Except`.
-/

namespace PPO

/-- Arithmetic mean of a list, as `tf.reduce_mean` over all elements
(division by zero for the empty list, matching rational convention). -/
def mean (xs : List ℚ) : ℚ := xs.sum / xs.length

/-- Model of `tf.clip_by_value`: clamp `x` into the interval `[lo, hi]`. -/
def clip_by_value (x lo hi : ℚ) : ℚ := min (max x lo) hi

/-- Elementwise combination of three lists, truncating to the shortest. -/
def zipWith3 (f : ℚ → ℚ → ℚ → ℚ) : List ℚ → List ℚ → List ℚ → List ℚ
  | a :: as, b :: bs, c :: cs => f a b c :: zipWith3 f as bs cs
  | _, _, _ => []

/-- Elementwise combination of four lists, truncating to the shortest. -/
def zipWith4 (f : ℚ → ℚ → ℚ → ℚ → ℚ) : List ℚ → List ℚ → List ℚ → List ℚ → List ℚ
  | a :: as, b :: bs, c :: cs, d :: ds => f a b c d :: zipWith4 f as bs cs ds
  | _, _, _, _ => []

/-- Model of `tf.scan(f, [xs, ys], reverse=True, initializer=init)` over the
time dimension: output[t] = f (output[t+1]) (xs[t], ys[t]), seeded with
`init` one past the last index. -/
def revScan (f : ℚ → ℚ × ℚ → ℚ) (init : ℚ) : List ℚ → List ℚ → List ℚ
  | a :: as, b :: bs =>
    f ((revScan f init as bs).headD init) (a, b) :: revScan f init as bs
  | _, _ => []

/-- Model of `PPOAgent.compute_returns` (ppo_agent.py:295-329): after checking
that rewards and discounts have the same shape, reverse-time scan of
`next_step_return * discount + reward` with a zero initializer.  The
`norm_variance_epsilon` argument (default `1e6` in the source) is accepted but,
as in the source, never used. -/
def compute_returns (rewards discounts : List ℚ) (norm_variance_epsilon : ℚ) :
    Except String (List ℚ) :=
  if rewards.length = discounts.length then
    Except.ok (revScan (fun next_step_return rd => next_step_return * rd.2 + rd.1) 0
      rewards discounts)
  else
    Except.error "rewards should have the same shape as discounts."

/-- Model of `PPOAgent.compute_advantages` (ppo_agent.py:331-379):
`value_preds` carries one extra trailing timestep; it is split into
`next_value_preds` (drop the first entry) and `value_preds` (drop the last).
Without GAE the advantage is `returns - value_preds`; with GAE it is the
reverse-time scan of `delta + discount * next_step_val * lambda` over the TD
residuals `deltas = rewards + discounts * next_value_preds - value_preds`. -/
def compute_advantages (use_gae : Bool) (lambda_value : ℚ)
    (rewards returns discounts value_preds : List ℚ) : List ℚ :=
  let next_value_preds := value_preds.tail
  let value_preds := value_preds.dropLast
  if !use_gae then
    List.zipWith (fun r v => r - v) returns value_preds
  else
    let deltas := zipWith4 (fun r d nv v => r + d * nv - v)
      rewards discounts next_value_preds value_preds
    revScan (fun next_step_val dd => dd.1 + dd.2 * next_step_val * lambda_value) 0
      deltas discounts

/-- Model of `PPOAgent.policy_gradient_loss` (ppo_agent.py:824-928) with the
external exponential abstracted as `expf`.  The new-policy log probabilities
are clipped to `[-log_prob_clipping, log_prob_clipping]` when that parameter is
positive, the importance weight is `expf` of the difference of log
probabilities, is clipped into `[1 - eps, 1 + eps]`, the per-timestep objective
is the elementwise minimum of clipped and unclipped weighted advantages (used
only when `eps > 0`), and the loss is the mean of the negated objective times
the validity mask. -/
def policy_gradient_loss (expf : ℚ → ℚ) (log_prob_clipping eps : ℚ)
    (action_log_prob sample_action_log_probs advantages valid_mask : List ℚ) : ℚ :=
  let action_log_prob :=
    if 0 < log_prob_clipping then
      action_log_prob.map
        (fun x => clip_by_value x (-log_prob_clipping) log_prob_clipping)
    else action_log_prob
  let iw := List.zipWith (fun a s => expf (a - s)) action_log_prob
    sample_action_log_probs
  let iw_clipped := iw.map (fun x => clip_by_value x (1 - eps) (1 + eps))
  let per_timestep_objective := List.zipWith (fun r a => r * a) iw advantages
  let per_timestep_objective_clipped :=
    List.zipWith (fun r a => r * a) iw_clipped advantages
  let per_timestep_objective_min :=
    List.zipWith min per_timestep_objective per_timestep_objective_clipped
  let pg :=
    if 0 < eps then per_timestep_objective_min.map (fun x => -x)
    else per_timestep_objective.map (fun x => -x)
  mean (List.zipWith (fun l m => l * m) pg valid_mask)

/-- The same pipeline with the final mask multiplication removed: the loss with
no mask applied at all, used to state the masking-neutrality property. -/
def policy_gradient_loss_nomask (expf : ℚ → ℚ) (log_prob_clipping eps : ℚ)
    (action_log_prob sample_action_log_probs advantages : List ℚ) : ℚ :=
  let action_log_prob :=
    if 0 < log_prob_clipping then
      action_log_prob.map
        (fun x => clip_by_value x (-log_prob_clipping) log_prob_clipping)
    else action_log_prob
  let iw := List.zipWith (fun a s => expf (a - s)) action_log_prob
    sample_action_log_probs
  let iw_clipped := iw.map (fun x => clip_by_value x (1 - eps) (1 + eps))
  let per_timestep_objective := List.zipWith (fun r a => r * a) iw advantages
  let per_timestep_objective_clipped :=
    List.zipWith (fun r a => r * a) iw_clipped advantages
  let per_timestep_objective_min :=
    List.zipWith min per_timestep_objective per_timestep_objective_clipped
  let pg :=
    if 0 < eps then per_timestep_objective_min.map (fun x => -x)
    else per_timestep_objective.map (fun x => -x)
  mean pg

/-- Per-timestep clipped-surrogate objective in which the log-prob clipping is
applied to the new log probability alone, as the source does. -/
def pg_objective_spec (expf : ℚ → ℚ) (log_prob_clipping eps lpNew lpOld adv : ℚ) : ℚ :=
  let lp := if 0 < log_prob_clipping then
    clip_by_value lpNew (-log_prob_clipping) log_prob_clipping else lpNew
  let r := expf (lp - lpOld)
  if 0 < eps then min (r * adv) (clip_by_value r (1 - eps) (1 + eps) * adv)
  else r * adv

/-- Per-timestep objective exactly as the claim words it: the log-prob clipping
wraps the difference of the two log probabilities before exponentiation. -/
def pg_objective_claimed (expf : ℚ → ℚ) (log_prob_clipping eps lpNew lpOld adv : ℚ) : ℚ :=
  let d := if 0 < log_prob_clipping then
    clip_by_value (lpNew - lpOld) (-log_prob_clipping) log_prob_clipping
  else lpNew - lpOld
  let r := expf d
  if 0 < eps then min (r * adv) (clip_by_value r (1 - eps) (1 + eps) * adv)
  else r * adv

/-- The loss formula of the claim, `-mean(objective * mask)`, with the claimed
objective (clipping on the difference of log probabilities). -/
def pg_loss_claimed (expf : ℚ → ℚ) (log_prob_clipping eps : ℚ)
    (action_log_prob sample_action_log_probs advantages valid_mask : List ℚ) : ℚ :=
  -mean (List.zipWith (fun l m => l * m)
    (zipWith3 (fun n o a => pg_objective_claimed expf log_prob_clipping eps n o a)
      action_log_prob sample_action_log_probs advantages) valid_mask)

/-- The loss formula of the amended claim, `-mean(objective * mask)`, with the
log-prob clipping applied to the new log probability only. -/
def pg_loss_amended (expf : ℚ → ℚ) (log_prob_clipping eps : ℚ)
    (action_log_prob sample_action_log_probs advantages valid_mask : List ℚ) : ℚ :=
  -mean (List.zipWith (fun l m => l * m)
    (zipWith3 (fun n o a => pg_objective_spec expf log_prob_clipping eps n o a)
      action_log_prob sample_action_log_probs advantages) valid_mask)

/-- Model of `PPOAgent.value_estimation_loss` (ppo_agent.py:776-822) with the
value-network predictions abstracted as the input list `value_preds`:
`mean(squared_difference(returns, value_preds) * valid_mask) * coef`. -/
def value_estimation_loss (value_pred_loss_coef : ℚ)
    (returns value_preds valid_mask : List ℚ) : ℚ :=
  mean (List.zipWith (fun e m => e * m)
    (List.zipWith (fun r v => (r - v) ^ 2) returns value_preds) valid_mask) *
    value_pred_loss_coef

/-- The value-estimation loss with no mask applied. -/
def value_estimation_loss_nomask (value_pred_loss_coef : ℚ)
    (returns value_preds : List ℚ) : ℚ :=
  mean (List.zipWith (fun r v => (r - v) ^ 2) returns value_preds) *
    value_pred_loss_coef

/-- Model of `PPOAgent.entropy_regularization_loss` (ppo_agent.py:754-774) with
the per-timestep policy entropy abstracted as the input list `entropy`:
`mean(-entropy * valid_mask) * coef` when the coefficient is positive, else the
constant zero loss. -/
def entropy_regularization_loss (entropy_regularization : ℚ)
    (entropy valid_mask : List ℚ) : ℚ :=
  if 0 < entropy_regularization then
    mean (List.zipWith (fun e m => -e * m) entropy valid_mask) *
      entropy_regularization
  else 0

/-- The entropy-regularization loss with no mask applied. -/
def entropy_regularization_loss_nomask (entropy_regularization : ℚ)
    (entropy : List ℚ) : ℚ :=
  if 0 < entropy_regularization then
    mean (entropy.map (fun e => -e)) * entropy_regularization
  else 0

/-- Model of `PPOAgent.kl_cutoff_loss` (ppo_agent.py:930-945): zero when the
cutoff factor is not positive, else a squared penalty on the mean KL divergence
above `kl_cutoff_factor * adaptive_kl_target`. -/
def kl_cutoff_loss (kl_cutoff_factor kl_cutoff_coef adaptive_kl_target : ℚ)
    (kl_divergence : List ℚ) : ℚ :=
  if kl_cutoff_factor ≤ 0 then 0
  else
    kl_cutoff_coef *
      max (mean kl_divergence - kl_cutoff_factor * adaptive_kl_target) 0 ^ 2

/-- Model of `PPOAgent.adaptive_kl_loss` (ppo_agent.py:947-958): zero when the
adaptive controller is disabled (`none`), else `beta * mean(kl)`. -/
def adaptive_kl_loss (adaptive_kl_beta : Option ℚ) (kl_divergence : List ℚ) : ℚ :=
  match adaptive_kl_beta with
  | none => 0
  | some beta => beta * mean kl_divergence

/-- Model of `PPOAgent.kl_penalty_loss` (ppo_agent.py:975-1014) with the
reconstructed-vs-current KL divergence abstracted as the input list: the KL
divergence is multiplied by the validity mask, then the cutoff and adaptive
terms are summed. -/
def kl_penalty_loss (kl_cutoff_factor kl_cutoff_coef adaptive_kl_target : ℚ)
    (adaptive_kl_beta : Option ℚ) (kl_divergence valid_mask : List ℚ) : ℚ :=
  let masked := List.zipWith (fun k m => k * m) kl_divergence valid_mask
  kl_cutoff_loss kl_cutoff_factor kl_cutoff_coef adaptive_kl_target masked +
    adaptive_kl_loss adaptive_kl_beta masked

/-- The KL-penalty loss with no mask applied. -/
def kl_penalty_loss_nomask (kl_cutoff_factor kl_cutoff_coef adaptive_kl_target : ℚ)
    (adaptive_kl_beta : Option ℚ) (kl_divergence : List ℚ) : ℚ :=
  kl_cutoff_loss kl_cutoff_factor kl_cutoff_coef adaptive_kl_target kl_divergence +
    adaptive_kl_loss adaptive_kl_beta kl_divergence

/-- Model of `PPOAgent.update_adaptive_kl_beta` (ppo_agent.py:1016-1050).
`none` models the disabled controller (a `tf.no_op`).  Otherwise the mean KL is
compared against the tolerance band around the target; `tf.case` with
`exclusive=True` raises when both predicates hold, modelled by the error
branch; the multiplicative factor is `1/1.5`, `1.5` or `1`, and the new beta is
floored at the source literal `10e-16`, i.e. `10 / 10^16`. -/
def update_adaptive_kl_beta (adaptive_kl_beta : Option ℚ) (kl_divergence : List ℚ)
    (adaptive_kl_target adaptive_kl_tolerance : ℚ) : Except String (Option ℚ) :=
  match adaptive_kl_beta with
  | none => Except.ok none
  | some beta =>
    let mean_kl := mean kl_divergence
    if mean_kl < adaptive_kl_target * (1 - adaptive_kl_tolerance) ∧
        adaptive_kl_target * (1 + adaptive_kl_tolerance) < mean_kl then
      Except.error "Multiple conditions evaluated to True in exclusive case."
    else if mean_kl < adaptive_kl_target * (1 - adaptive_kl_tolerance) then
      Except.ok (some (max (beta * (1 / (3 / 2))) (10 / 10 ^ 16)))
    else if adaptive_kl_target * (1 + adaptive_kl_tolerance) < mean_kl then
      Except.ok (some (max (beta * (3 / 2)) (10 / 10 ^ 16)))
    else
      Except.ok (some (max (beta * 1) (10 / 10 ^ 16)))

/-- Model of `tf.add` with numpy-style broadcasting along the time dimension:
equal lengths add elementwise, a length-one operand broadcasts, anything else
is a shape error. -/
def tf_add (xs ys : List ℚ) : Except String (List ℚ) :=
  if xs.length = ys.length then Except.ok (List.zipWith (fun x y => x + y) xs ys)
  else if xs.length = 1 then Except.ok (ys.map (fun y => xs.headD 0 + y))
  else if ys.length = 1 then Except.ok (xs.map (fun x => x + ys.headD 0))
  else Except.error "Incompatible shapes"

/-- Model of `_normalize_advantages` (ppo_agent.py:77-81) with the external
square root abstracted as `sqrtf`: subtract the batch mean and divide by the
batch standard deviation plus the variance epsilon. -/
def normalize_advantages (sqrtf : ℚ → ℚ) (advantages : List ℚ)
    (variance_epsilon : ℚ) : List ℚ :=
  let adv_mean := mean advantages
  let adv_var := mean (advantages.map (fun a => (a - adv_mean) ^ 2))
  advantages.map (fun a => (a - adv_mean) / (sqrtf adv_var + variance_epsilon))

/-- Model of `PPOAgent.compute_return_and_advantage` (ppo_agent.py:491-552)
for a single batch row.  The environment discounts are scaled by the discount
factor and zeroed at episode ends by the episode mask; rewards are passed
through the optional reward normalizer (an abstract elementwise map standing
for the streaming normalizer); Monte Carlo returns, advantages and normalized
advantages are computed; finally, when TD(lambda) returns are requested
together with GAE the returns are overwritten with
`tf.add(advantages, value_preds)` — the full value-prediction tensor, as in
the source — and when TD(lambda) is requested without GAE a warning is logged
and the Monte Carlo returns are kept. -/
def compute_return_and_advantage (use_gae use_td_lambda_return : Bool)
    (lambda_value discount_factor : ℚ) (reward_normalizer : Option (ℚ → ℚ))
    (sqrtf : ℚ → ℚ) (next_discounts raw_rewards episode_mask value_preds : List ℚ) :
    Except String (List ℚ × List ℚ) := do
  let discounts := next_discounts.map (fun d => d * discount_factor)
  let rewards := match reward_normalizer with
    | none => raw_rewards
    | some f => raw_rewards.map f
  let discounts := List.zipWith (fun d m => d * m) discounts episode_mask
  let returns ← compute_returns rewards discounts (10 ^ 6)
  let advantages := compute_advantages use_gae lambda_value rewards returns
    discounts value_preds
  let normalized_advantages := normalize_advantages sqrtf advantages (1 / 10 ^ 8)
  let returns ←
    if use_td_lambda_return then
      if !use_gae then Except.ok returns
      else tf_add advantages value_preds
    else Except.ok returns
  Except.ok (returns, normalized_advantages)

/-- Observable side-effect events of one training call, in execution order. -/
inductive TrainEvent : Type where
  | epochUpdate : Nat → TrainEvent
  | adaptiveKlBetaUpdate : TrainEvent
  | obsNormUpdate : TrainEvent
  | rewardNormUpdate : TrainEvent

/-- Mutable agent state threaded through a training call: current network
weights, the adaptive KL beta variable (`none` when disabled), and the two
streaming-normalizer statistics. -/
structure PPOTrainState (W S T : Type) where
  weights : W
  adaptive_kl_beta : Option ℚ
  obs_stats : S
  reward_stats : T

/-- External collaborators and configuration of `train_from_experience`: the
per-epoch optimizer step on the weights, the KL divergence between the
distribution reconstructed from the stored parameters and the policy
distribution at given weights, the two normalizer update folds, and the
adaptive-KL configuration. -/
structure PPOEnv (W P O R S T : Type) where
  num_epochs : Nat
  train_epoch : W → W
  kl_divergence : P → W → List ℚ
  adaptive_kl_target : ℚ
  adaptive_kl_tolerance : ℚ
  obs_update : S → O → S
  reward_update : T → R → T

/-- The epoch loop of `train_from_experience` (ppo_agent.py:633-653): each
epoch's train op runs strictly after the previous one (modelled by sequential
application of the weight update) and appends its event to the trace. -/
def run_epochs {W : Type} (train_epoch : W → W) : Nat → W → W × List TrainEvent
  | 0, w => (w, [])
  | Nat.succ k, w =>
    let p := run_epochs train_epoch k w
    (train_epoch p.1, p.2 ++ [TrainEvent.epochUpdate k])

/-- Model of `train_from_experience` (ppo_agent.py:574-721) after the batch
has been prepared: run all epochs; then, in a control dependency on the last
train op, recompute the KL divergence between the originally-stored
distribution parameters and the policy at the now-fully-updated weights (the
source applies NO validity mask on this path, ppo_agent.py:662-664) and update
the adaptive KL beta from it; only then, in a control dependency on the beta
update, update the observation and reward normalizer statistics from the raw
batch values.  `valid_mask` is available to the call (it masks every per-epoch
loss) but is not consumed on this final path. -/
def train_from_experience {W P O R S T : Type} (env : PPOEnv W P O R S T)
    (st : PPOTrainState W S T) (action_distribution_parameters : P)
    (raw_observations : O) (raw_rewards : R) (valid_mask : List ℚ) :
    Except String (PPOTrainState W S T × List TrainEvent) :=
  let ep := run_epochs env.train_epoch env.num_epochs st.weights
  let kl_divergence := env.kl_divergence action_distribution_parameters ep.1
  match update_adaptive_kl_beta st.adaptive_kl_beta kl_divergence
      env.adaptive_kl_target env.adaptive_kl_tolerance with
  | Except.error e => Except.error e
  | Except.ok new_beta =>
    Except.ok (⟨ep.1, new_beta, env.obs_update st.obs_stats raw_observations,
      env.reward_update st.reward_stats raw_rewards⟩,
      ep.2 ++ [TrainEvent.adaptiveKlBetaUpdate, TrainEvent.obsNormUpdate,
        TrainEvent.rewardNormUpdate])

section BasicLemmas

lemma headD_eq_getD_zero (l : List ℚ) (d : ℚ) : l.headD d = l.getD 0 d := by
  cases l <;> rfl

lemma revScan_length (f : ℚ → ℚ × ℚ → ℚ) (init : ℚ) :
    ∀ as bs : List ℚ, (revScan f init as bs).length = min as.length bs.length := by
  intro as
  induction as with
  | nil => intro bs; cases bs <;> simp [revScan]
  | cons a as ih =>
    intro bs
    cases bs with
    | nil => simp [revScan]
    | cons b bs => simp [revScan, ih bs]; omega

lemma revScan_getD (f : ℚ → ℚ × ℚ → ℚ) (init : ℚ) :
    ∀ (as bs : List ℚ) (t : Nat), t < as.length → t < bs.length →
      (revScan f init as bs).getD t init =
        f ((revScan f init as bs).getD (t + 1) init) (as.getD t 0, bs.getD t 0) := by
  intro as
  induction as with
  | nil => intro bs t h; simp at h
  | cons a as ih =>
    intro bs t h1 h2
    cases bs with
    | nil => simp at h2
    | cons b bs =>
      cases t with
      | zero =>
        simp only [revScan, List.getD_cons_zero, List.getD_cons_succ]
        rw [headD_eq_getD_zero]
      | succ t =>
        simp only [revScan, List.getD_cons_succ]
        exact ih bs t (by simpa using h1) (by simpa using h2)

lemma getD_zipWith (f : ℚ → ℚ → ℚ) :
    ∀ (xs ys : List ℚ) (t : Nat), t < xs.length → t < ys.length →
      (List.zipWith f xs ys).getD t 0 = f (xs.getD t 0) (ys.getD t 0) := by
  intro xs
  induction xs with
  | nil => intro ys t h; simp at h
  | cons x xs ih =>
    intro ys t h1 h2
    cases ys with
    | nil => simp at h2
    | cons y ys =>
      cases t with
      | zero => rfl
      | succ t =>
        simp only [List.zipWith_cons_cons, List.getD_cons_succ]
        exact ih ys t (by simpa using h1) (by simpa using h2)

lemma zipWith4_length (f : ℚ → ℚ → ℚ → ℚ → ℚ) :
    ∀ as bs cs ds : List ℚ,
      (zipWith4 f as bs cs ds).length =
        min as.length (min bs.length (min cs.length ds.length)) := by
  intro as
  induction as with
  | nil => intro bs cs ds; cases bs <;> cases cs <;> cases ds <;> simp [zipWith4]
  | cons a as ih =>
    intro bs cs ds
    cases bs with
    | nil => simp [zipWith4]
    | cons b bs =>
      cases cs with
      | nil => simp [zipWith4]
      | cons c cs =>
        cases ds with
        | nil => simp [zipWith4]
        | cons d ds => simp [zipWith4, ih bs cs ds]; omega

lemma getD_zipWith4 (f : ℚ → ℚ → ℚ → ℚ → ℚ) :
    ∀ (as bs cs ds : List ℚ) (t : Nat),
      t < as.length → t < bs.length → t < cs.length → t < ds.length →
      (zipWith4 f as bs cs ds).getD t 0 =
        f (as.getD t 0) (bs.getD t 0) (cs.getD t 0) (ds.getD t 0) := by
  intro as
  induction as with
  | nil => intro bs cs ds t h; simp at h
  | cons a as ih =>
    intro bs cs ds t h1 h2 h3 h4
    cases bs with
    | nil => simp at h2
    | cons b bs =>
      cases cs with
      | nil => simp at h3
      | cons c cs =>
        cases ds with
        | nil => simp at h4
        | cons d ds =>
          cases t with
          | zero => rfl
          | succ t =>
            simp only [zipWith4, List.getD_cons_succ]
            exact ih bs cs ds t (by simpa using h1) (by simpa using h2)
              (by simpa using h3) (by simpa using h4)

lemma getD_tail (xs : List ℚ) (t : Nat) : xs.tail.getD t 0 = xs.getD (t + 1) 0 := by
  cases xs <;> rfl

lemma getD_dropLast :
    ∀ (xs : List ℚ) (t : Nat), t + 1 < xs.length → xs.dropLast.getD t 0 = xs.getD t 0 := by
  intro xs
  induction xs with
  | nil => intro t h; simp at h
  | cons x xs ih =>
    intro t h
    cases xs with
    | nil => simp at h
    | cons y ys =>
      cases t with
      | zero => rfl
      | succ t =>
        simp only [List.dropLast_cons₂, List.getD_cons_succ]
        exact ih t (by simpa using h)

end BasicLemmas

section ZipFusion

lemma zipWith_map_left' (f : ℚ → ℚ → ℚ) (g : ℚ → ℚ) :
    ∀ xs ys : List ℚ,
      List.zipWith f (xs.map g) ys = List.zipWith (fun x y => f (g x) y) xs ys := by
  intro xs
  induction xs with
  | nil => intro ys; simp
  | cons x xs ih => intro ys; cases ys <;> simp [ih]

lemma map_zipWith' (h : ℚ → ℚ) (f : ℚ → ℚ → ℚ) :
    ∀ xs ys : List ℚ,
      (List.zipWith f xs ys).map h = List.zipWith (fun x y => h (f x y)) xs ys := by
  intro xs
  induction xs with
  | nil => intro ys; simp
  | cons x xs ih => intro ys; cases ys <;> simp [ih]

lemma zipWith_congr' (f g : ℚ → ℚ → ℚ) (h : ∀ x y, f x y = g x y) :
    ∀ xs ys : List ℚ, List.zipWith f xs ys = List.zipWith g xs ys := by
  intro xs
  induction xs with
  | nil => intro ys; simp
  | cons x xs ih => intro ys; cases ys <;> simp [ih, h]

lemma zipWith_zipWith_left3 (f g : ℚ → ℚ → ℚ) :
    ∀ as bs cs : List ℚ,
      List.zipWith f (List.zipWith g as bs) cs =
        zipWith3 (fun a b c => f (g a b) c) as bs cs := by
  intro as
  induction as with
  | nil => intro bs cs; simp [zipWith3]
  | cons a as ih =>
    intro bs cs
    cases bs with
    | nil => simp [zipWith3]
    | cons b bs => cases cs <;> simp [zipWith3, ih]

lemma zipWith_zipWith3_pair (f : ℚ → ℚ → ℚ) (F G : ℚ → ℚ → ℚ → ℚ) :
    ∀ as bs cs : List ℚ,
      List.zipWith f (zipWith3 F as bs cs) (zipWith3 G as bs cs) =
        zipWith3 (fun a b c => f (F a b c) (G a b c)) as bs cs := by
  intro as
  induction as with
  | nil => intro bs cs; simp [zipWith3]
  | cons a as ih =>
    intro bs cs
    cases bs with
    | nil => simp [zipWith3]
    | cons b bs => cases cs <;> simp [zipWith3, ih]

lemma map_zipWith3' (h : ℚ → ℚ) (F : ℚ → ℚ → ℚ → ℚ) :
    ∀ as bs cs : List ℚ,
      (zipWith3 F as bs cs).map h =
        zipWith3 (fun a b c => h (F a b c)) as bs cs := by
  intro as
  induction as with
  | nil => intro bs cs; simp [zipWith3]
  | cons a as ih =>
    intro bs cs
    cases bs with
    | nil => simp [zipWith3]
    | cons b bs => cases cs <;> simp [zipWith3, ih]

lemma zipWith3_congr (F G : ℚ → ℚ → ℚ → ℚ) (h : ∀ a b c, F a b c = G a b c) :
    ∀ as bs cs : List ℚ, zipWith3 F as bs cs = zipWith3 G as bs cs := by
  intro as
  induction as with
  | nil => intro bs cs; simp [zipWith3]
  | cons a as ih =>
    intro bs cs
    cases bs with
    | nil => simp [zipWith3]
    | cons b bs => cases cs <;> simp [zipWith3, ih, h]

lemma zipWith3_length (F : ℚ → ℚ → ℚ → ℚ) :
    ∀ as bs cs : List ℚ,
      (zipWith3 F as bs cs).length = min as.length (min bs.length cs.length) := by
  intro as
  induction as with
  | nil => intro bs cs; cases bs <;> cases cs <;> simp [zipWith3]
  | cons a as ih =>
    intro bs cs
    cases bs with
    | nil => simp [zipWith3]
    | cons b bs => cases cs <;> simp [zipWith3, ih] <;> omega

lemma sum_map_neg : ∀ l : List ℚ, (l.map (fun x => -x)).sum = -l.sum := by
  intro l
  induction l with
  | nil => simp
  | cons x xs ih => simp [ih]; ring

lemma mean_map_neg (l : List ℚ) : mean (l.map (fun x => -x)) = -mean l := by
  simp [mean, sum_map_neg, neg_div]

end ZipFusion

/-- The source policy-gradient pipeline (…_nomask: without the mask) equals the
per-timestep objective form: the loss is `-mean(objective * mask)` with the
objective of `pg_objective_spec` (clipping the new log probability only). -/
lemma policy_gradient_loss_eq_spec (expf : ℚ → ℚ) (c eps : ℚ)
    (ns os as ms : List ℚ) :
    policy_gradient_loss expf c eps ns os as ms =
      -mean (List.zipWith (fun l m => l * m)
        (zipWith3 (fun n o a => pg_objective_spec expf c eps n o a) ns os as) ms) := by
  rw [← mean_map_neg, map_zipWith']
  rw [zipWith_congr' (fun x y => -(x * y)) (fun x y => -x * y)
    (fun x y => by ring) _ ms]
  rw [← zipWith_map_left', map_zipWith3']
  by_cases hc : 0 < c <;> by_cases he : 0 < eps <;>
    simp only [policy_gradient_loss, if_pos, if_neg, hc, he, zipWith_map_left',
      map_zipWith', zipWith_zipWith_left3, zipWith_zipWith3_pair, map_zipWith3'] <;>
    refine congrArg mean (congrArg (fun l => List.zipWith (fun l m => l * m) l ms)
      (zipWith3_congr _ _ (fun n o a => ?_) ns os as)) <;>
    simp [pg_objective_spec, hc, he]

lemma policy_gradient_loss_nomask_eq_spec (expf : ℚ → ℚ) (c eps : ℚ)
    (ns os as : List ℚ) :
    policy_gradient_loss_nomask expf c eps ns os as =
      -mean (zipWith3 (fun n o a => pg_objective_spec expf c eps n o a) ns os as) := by
  rw [← mean_map_neg, map_zipWith3']
  by_cases hc : 0 < c <;> by_cases he : 0 < eps <;>
    simp only [policy_gradient_loss_nomask, if_pos, if_neg, hc, he, zipWith_map_left',
      map_zipWith', zipWith_zipWith_left3, zipWith_zipWith3_pair, map_zipWith3'] <;>
    refine congrArg mean (zipWith3_congr _ _ (fun n o a => ?_) ns os as) <;>
    simp [pg_objective_spec, hc, he]

/-- With `lambda = 1` and a zero final bootstrap value prediction, the GAE
reverse scan coincides with the Monte Carlo returns minus the value
predictions.  Induction over the time dimension of the two scans. -/
lemma gae_scan_lambda_one :
    ∀ (rewards discounts w : List ℚ),
      discounts.length = rewards.length →
      w.length = rewards.length + 1 →
      w.getD rewards.length 0 = 0 →
      revScan (fun next_step_val dd => dd.1 + dd.2 * next_step_val * 1) 0
          (zipWith4 (fun r d nv v => r + d * nv - v) rewards discounts
            w.tail w.dropLast) discounts =
        List.zipWith (fun r v => r - v)
          (revScan (fun next_step_return rd => next_step_return * rd.2 + rd.1) 0
            rewards discounts) w.dropLast := by
  intro rewards
  induction rewards with
  | nil =>
    intro discounts w hd hw hlast
    have hdnil : discounts = [] := by simpa using hd
    subst hdnil
    rfl
  | cons r rs ih =>
    intro discounts w hd hw hlast
    cases discounts with
    | nil => simp at hd
    | cons d ds =>
      cases w with
      | nil => simp at hw
      | cons v w1 =>
        cases w1 with
        | nil => simp at hw
        | cons v1 w2 =>
          have hds : ds.length = rs.length := by simpa using hd
          have hw1 : (v1 :: w2).length = rs.length + 1 := by simpa using hw
          have hlast1 : (v1 :: w2).getD rs.length 0 = 0 := by simpa using hlast
          have IH := ih ds (v1 :: w2) hds hw1 hlast1
          simp only [List.tail_cons] at IH
          show revScan _ 0 ((r + d * v1 - v) ::
            zipWith4 (fun r d nv v => r + d * nv - v) rs ds w2
              (v1 :: w2).dropLast) (d :: ds) = _
          simp only [revScan, IH, List.zipWith_cons_cons]
          have hH : (List.zipWith (fun r v => r - v)
              (revScan (fun next_step_return rd => next_step_return * rd.2 + rd.1) 0
                rs ds) (v1 :: w2).dropLast).headD 0 =
              (revScan (fun next_step_return rd => next_step_return * rd.2 + rd.1) 0
                rs ds).headD 0 - v1 := by
            cases rs with
            | nil =>
              have hw2 : w2 = [] := by
                have : w2.length = 0 := by simpa using hw1
                simpa using this
              have hv1 : v1 = 0 := by simpa [hw2] using hlast1
              have hdsnil : ds = [] := by simpa using hds
              subst hw2; subst hdsnil
              simp [revScan, hv1]
            | cons r2 rs2 =>
              cases ds with
              | nil => simp at hds
              | cons d2 ds2 =>
                cases w2 with
                | nil => simp at hw1
                | cons x xs => simp [revScan]
          rw [hH]
          congr 1
          ring

lemma run_epochs_fst {W : Type} (f : W → W) : ∀ (n : Nat) (w : W),
    (run_epochs f n w).1 = f^[n] w := by
  intro n
  induction n with
  | zero => intro w; rfl
  | succ k ih => intro w; simp [run_epochs, ih, Function.iterate_succ_apply']

lemma run_epochs_snd {W : Type} (f : W → W) : ∀ (n : Nat) (w : W),
    (run_epochs f n w).2 = (List.range n).map TrainEvent.epochUpdate := by
  intro n
  induction n with
  | zero => intro w; rfl
  | succ k ih => intro w; simp [run_epochs, ih, List.range_succ]

/-- With a non-degenerate tolerance band the exclusive `tf.case` in the beta
update cannot fail. -/
lemma update_adaptive_kl_beta_isOk (beta : Option ℚ) (kl_divergence : List ℚ)
    (target tol : ℚ) (h : 0 ≤ target * tol) :
    ∃ b, update_adaptive_kl_beta beta kl_divergence target tol = Except.ok b := by
  cases beta with
  | none => exact ⟨none, rfl⟩
  | some b =>
    have hexcl : ¬(mean kl_divergence < target * (1 - tol) ∧
        target * (1 + tol) < mean kl_divergence) := by
      rintro ⟨h1, h2⟩
      nlinarith
    by_cases h1 : mean kl_divergence < target * (1 - tol)
    · refine ⟨some (max (b * (1 / (3 / 2))) (10 / 10 ^ 16)), ?_⟩
      simp only [update_adaptive_kl_beta, if_neg hexcl, if_pos h1]
    · by_cases h2 : target * (1 + tol) < mean kl_divergence
      · refine ⟨some (max (b * (3 / 2)) (10 / 10 ^ 16)), ?_⟩
        simp only [update_adaptive_kl_beta, if_neg hexcl, if_neg h1, if_pos h2]
      · refine ⟨some (max (b * 1) (10 / 10 ^ 16)), ?_⟩
        simp only [update_adaptive_kl_beta, if_neg hexcl, if_neg h1, if_neg h2]

section MaskLemmas

lemma zipWith_mul_one (xs : List ℚ) :
    List.zipWith (fun a b => a * b) xs (List.replicate xs.length 1) = xs := by
  induction xs with
  | nil => simp
  | cons x xs ih => simp [List.replicate_succ, ih]

lemma zipWith_negmul_one (xs : List ℚ) :
    List.zipWith (fun a b => -a * b) xs (List.replicate xs.length 1) =
      xs.map (fun a => -a) := by
  induction xs with
  | nil => simp
  | cons x xs ih =>
    simp only [neg_mul] at ih ⊢
    simp [List.replicate_succ, ih]

lemma zipWith_mul_zero (xs : List ℚ) :
    ∀ n : ℕ, List.zipWith (fun a b => a * b) xs (List.replicate n 0) =
      List.replicate (min xs.length n) 0 := by
  induction xs with
  | nil => intro n; simp
  | cons x xs ih =>
    intro n
    cases n with
    | zero => simp
    | succ n => simp [List.replicate_succ, ih, Nat.succ_min_succ]

lemma zipWith_negmul_zero (xs : List ℚ) :
    ∀ n : ℕ, List.zipWith (fun a b => -a * b) xs (List.replicate n 0) =
      List.replicate (min xs.length n) 0 := by
  induction xs with
  | nil => intro n; simp
  | cons x xs ih =>
    intro n
    simp only [neg_mul] at ih ⊢
    cases n with
    | zero => simp
    | succ n => simp [List.replicate_succ, ih, Nat.succ_min_succ]

lemma mean_replicate_zero (n : ℕ) : mean (List.replicate n 0) = 0 := by
  simp [mean, List.sum_replicate]

end MaskLemmas

/-- C1: for rewards and discounts of equal shape, `compute_returns` returns R
with `R[t] = rewards[t] + discounts[t] * R[t+1]` for every timestep `t`, with
`R[T] = 0` as the reverse-scan seed (encoded by `getD _ 0`, which yields the
seed 0 one past the last index); in particular rewards `[1,1,1]` with discounts
`[1,1,0]` yield returns `[3,2,1]`. -/
theorem compute_returns_recursion :
    (∀ (rewards discounts : List ℚ) (e : ℚ), rewards.length = discounts.length →
      ∃ R : List ℚ, compute_returns rewards discounts e = Except.ok R ∧
        R.length = rewards.length ∧
        ∀ t, t < R.length →
          R.getD t 0 = rewards.getD t 0 + discounts.getD t 0 * R.getD (t + 1) 0) ∧
    compute_returns [1, 1, 1] [1, 1, 0] (10 ^ 6) = Except.ok [3, 2, 1] := by
  constructor
  · intro rewards discounts e h
    refine ⟨revScan (fun next_step_return rd => next_step_return * rd.2 + rd.1) 0
      rewards discounts, by simp [compute_returns, h], ?_, ?_⟩
    · rw [revScan_length, h, min_self]
    · intro t ht
      rw [revScan_length, h, min_self] at ht
      rw [revScan_getD _ 0 rewards discounts t (h ▸ ht) ht]
      ring
  · norm_num [compute_returns, revScan]

/-- Witness for C1 at rewards `[1,1,1]`, discounts `[1,1,0]`. -/
theorem compute_returns_recursion_witness :
    ∃ R : List ℚ, compute_returns [1, 1, 1] [1, 1, 0] (10 ^ 6) = Except.ok R ∧
      R.length = ([1, 1, 1] : List ℚ).length ∧
      ∀ t, t < R.length →
        R.getD t 0 = ([1, 1, 1] : List ℚ).getD t 0 +
          ([1, 1, 0] : List ℚ).getD t 0 * R.getD (t + 1) 0 :=
  compute_returns_recursion.1 [1, 1, 1] [1, 1, 0] (10 ^ 6) rfl

/-- C2: `compute_advantages` splits `value_preds` (one extra trailing timestep
versus rewards) into `value[t] = value_preds[t]` and
`value_next[t] = value_preds[t+1]`; with GAE disabled it returns
`advantage[t] = returns[t] - value[t]`; with GAE enabled it returns the
reverse-time scan `A[t] = delta[t] + discounts[t]*lambda*A[t+1]` with
`delta[t] = rewards[t] + discounts[t]*value_next[t] - value[t]` and seed
`A[T] = 0` (again encoded by `getD _ 0` one past the last index). -/
theorem compute_advantages_spec :
    ∀ (lambda_value : ℚ) (rewards returns discounts value_preds : List ℚ),
      discounts.length = rewards.length →
      returns.length = rewards.length →
      value_preds.length = rewards.length + 1 →
      ((compute_advantages false lambda_value rewards returns discounts
          value_preds).length = rewards.length ∧
        ∀ t, t < rewards.length →
          (compute_advantages false lambda_value rewards returns discounts
            value_preds).getD t 0 = returns.getD t 0 - value_preds.getD t 0) ∧
      ((compute_advantages true lambda_value rewards returns discounts
          value_preds).length = rewards.length ∧
        ∀ t, t < rewards.length →
          (compute_advantages true lambda_value rewards returns discounts
            value_preds).getD t 0 =
            (rewards.getD t 0 + discounts.getD t 0 * value_preds.getD (t + 1) 0 -
              value_preds.getD t 0) +
              discounts.getD t 0 * lambda_value *
                (compute_advantages true lambda_value rewards returns discounts
                  value_preds).getD (t + 1) 0) := by
  intro lambda_value rewards returns discounts value_preds hd hr hv
  have hdrop : value_preds.dropLast.length = rewards.length := by
    simp [List.length_dropLast, hv]
  have htail : value_preds.tail.length = rewards.length := by
    simp [List.length_tail, hv]
  have hA0 : compute_advantages false lambda_value rewards returns discounts
      value_preds = List.zipWith (fun r v => r - v) returns value_preds.dropLast := rfl
  have hA1 : compute_advantages true lambda_value rewards returns discounts
      value_preds =
      revScan (fun next_step_val dd => dd.1 + dd.2 * next_step_val * lambda_value) 0
        (zipWith4 (fun r d nv v => r + d * nv - v) rewards discounts
          value_preds.tail value_preds.dropLast) discounts := rfl
  constructor
  · constructor
    · simp [hA0, hr, hdrop]
    · intro t ht
      rw [hA0, getD_zipWith _ returns value_preds.dropLast t (hr ▸ ht) (hdrop ▸ ht),
        getD_dropLast value_preds t (by omega)]
  · have hdel : (zipWith4 (fun r d nv v => r + d * nv - v) rewards discounts
        value_preds.tail value_preds.dropLast).length = rewards.length := by
      rw [zipWith4_length, hd, htail, hdrop]; omega
    constructor
    · rw [hA1, revScan_length, hdel, hd, min_self]
    · intro t ht
      rw [hA1, revScan_getD _ 0 _ discounts t (hdel ▸ ht) (hd ▸ ht),
        getD_zipWith4 _ rewards discounts value_preds.tail value_preds.dropLast t
          ht (hd ▸ ht) (htail ▸ ht) (hdrop ▸ ht),
        getD_tail, getD_dropLast value_preds t (by omega)]
      ring

/-- Witness for C2 at rewards `[1,2]`, returns `[2,2]`, discounts `[1/2,0]`,
value predictions `[1,1,1]`. -/
theorem compute_advantages_spec_witness :
    ((compute_advantages false (95 / 100) [1, 2] [2, 2] [1 / 2, 0]
        [1, 1, 1]).length = ([1, 2] : List ℚ).length ∧
      ∀ t, t < ([1, 2] : List ℚ).length →
        (compute_advantages false (95 / 100) [1, 2] [2, 2] [1 / 2, 0]
          [1, 1, 1]).getD t 0 =
          ([2, 2] : List ℚ).getD t 0 - ([1, 1, 1] : List ℚ).getD t 0) ∧
    ((compute_advantages true (95 / 100) [1, 2] [2, 2] [1 / 2, 0]
        [1, 1, 1]).length = ([1, 2] : List ℚ).length ∧
      ∀ t, t < ([1, 2] : List ℚ).length →
        (compute_advantages true (95 / 100) [1, 2] [2, 2] [1 / 2, 0]
          [1, 1, 1]).getD t 0 =
          (([1, 2] : List ℚ).getD t 0 +
            ([1 / 2, 0] : List ℚ).getD t 0 * ([1, 1, 1] : List ℚ).getD (t + 1) 0 -
            ([1, 1, 1] : List ℚ).getD t 0) +
            ([1 / 2, 0] : List ℚ).getD t 0 * (95 / 100) *
              (compute_advantages true (95 / 100) [1, 2] [2, 2] [1 / 2, 0]
                [1, 1, 1]).getD (t + 1) 0) :=
  compute_advantages_spec (95 / 100) [1, 2] [2, 2] [1 / 2, 0] [1, 1, 1] rfl rfl rfl

/-- C3 counterexample: with log-prob clipping 1, clipping epsilon 0, new
log-probability 5 equal to the old one, advantage 1 and mask 1 (and the
external exponential instantiated with the identity, which is injective, so
any exponential separates the two clip placements), the source loss is 4 while
the loss claimed (clipping the difference of log probabilities) is 0: the
source clips the new log probability alone, not the difference. -/
theorem policy_gradient_loss_counterexample :
    policy_gradient_loss (fun x => x) 1 0 [5] [5] [1] [1] = 4 ∧
    pg_loss_claimed (fun x => x) 1 0 [5] [5] [1] [1] = 0 ∧
    (4 : ℚ) ≠ 0 := by
  refine ⟨?_, ?_, by norm_num⟩
  · norm_num [policy_gradient_loss, clip_by_value, mean, min_def, max_def]
  · norm_num [pg_loss_claimed, pg_objective_claimed, zipWith3, clip_by_value,
      mean, min_def, max_def]

/-- C3 amended: `policy_gradient_loss` computes the importance weight as
`exp(clip(log pi_new(a), +-logClip) - log pi_old(a))` — the log-prob clipping
applies to the new log probability only, not to the difference — with no
clipping when the log-prob clipping value is 0; the weight is clipped into
`[1-eps, 1+eps]`, the per-timestep objective is
`min(weight*A, weight_clipped*A)` elementwise, and the loss is
`-mean(objective * mask)`; when the clipping epsilon is 0 the clipping is
skipped and the unclipped objective `weight*A` is used directly. -/
theorem policy_gradient_loss_amended :
    ∀ (expf : ℚ → ℚ) (log_prob_clipping eps : ℚ)
      (action_log_prob sample_action_log_probs advantages valid_mask : List ℚ),
      policy_gradient_loss expf log_prob_clipping eps action_log_prob
          sample_action_log_probs advantages valid_mask =
        pg_loss_amended expf log_prob_clipping eps action_log_prob
          sample_action_log_probs advantages valid_mask := by
  intro expf c eps ns os as ms
  rw [policy_gradient_loss_eq_spec, pg_loss_amended]

/-- C4: with both `use_td_lambda_return` and `use_gae` enabled the source
overwrites the returns with `tf.add(advantages, value_preds)` using the FULL
value-prediction tensor (one timestep longer than the advantages), not
`value_preds[:, :-1]` as claimed; at two timesteps the shapes `[2]` and `[3]`
are incompatible and the call fails, instead of producing the claimed
`advantage + value_preds[:, :-1]`.  When TD(lambda) is requested without GAE
the Monte Carlo returns are kept unchanged, as the claim states. -/
theorem td_lambda_return_shape_bug :
    compute_return_and_advantage true true (95 / 100) 1 none (fun x => x)
      [1, 1] [1, 1] [1, 1] [0, 0, 0] = Except.error "Incompatible shapes" ∧
    Except.map Prod.fst
      (compute_return_and_advantage false true (95 / 100) 1 none (fun x => x)
        [1, 1] [1, 1] [1, 1] [0, 0, 0]) = Except.ok [2, 1] ∧
    compute_returns [1, 1] [1, 1] (10 ^ 6) = Except.ok [2, 1] := by
  refine ⟨?_, ?_, ?_⟩
  · norm_num [compute_return_and_advantage, compute_returns, revScan,
      compute_advantages, zipWith4, tf_add, Bind.bind, Except.bind]
  · norm_num [compute_return_and_advantage, compute_returns, revScan,
      compute_advantages, tf_add, Except.map, Bind.bind, Except.bind]
  · norm_num [compute_returns, revScan]

/-- C5 counterexample: with the controller enabled at beta `1e-16 > 0`, target
`0.01`, tolerance `0.3` and mean KL `0.01` inside the tolerance band, the
middle branch does not leave beta unchanged: the source floors it to
`10e-16 = 1e-15`. -/
theorem update_adaptive_kl_beta_counterexample :
    (0 : ℚ) < 1 / 10 ^ 16 ∧
    update_adaptive_kl_beta (some (1 / 10 ^ 16)) [1 / 100] (1 / 100) (3 / 10) =
      Except.ok (some (1 / 10 ^ 15)) ∧
    (1 / 10 ^ 15 : ℚ) ≠ 1 / 10 ^ 16 := by
  refine ⟨by norm_num, ?_, by norm_num⟩
  norm_num [update_adaptive_kl_beta, mean, max_def]

/-- C5 amended: when the controller is enabled (`some beta`) and the tolerance
band is non-degenerate (`0 ≤ target * tolerance`, which makes the two bound
predicates mutually exclusive so the exclusive `tf.case` cannot fail), the
update replaces beta by `max(beta/1.5, eps_floor)` below the band, by
`max(beta*1.5, eps_floor)` above the band, and by `max(beta, eps_floor)`
otherwise (so beta is left unchanged whenever it already is at least the floor
`1e-15`); with target `0.01`, tolerance `0.3` and beta `1.0`: mean KL `0.02`
gives `1.5`, mean KL `0.003` gives `2/3`, and mean KL `0.01` leaves `1.0`. -/
theorem update_adaptive_kl_beta_amended :
    (∀ (beta : ℚ) (kl_divergence : List ℚ) (target tol : ℚ), 0 ≤ target * tol →
      (mean kl_divergence < target * (1 - tol) →
        update_adaptive_kl_beta (some beta) kl_divergence target tol =
          Except.ok (some (max (beta * (1 / (3 / 2))) (10 / 10 ^ 16)))) ∧
      (target * (1 + tol) < mean kl_divergence →
        update_adaptive_kl_beta (some beta) kl_divergence target tol =
          Except.ok (some (max (beta * (3 / 2)) (10 / 10 ^ 16)))) ∧
      (¬mean kl_divergence < target * (1 - tol) →
        ¬target * (1 + tol) < mean kl_divergence →
        update_adaptive_kl_beta (some beta) kl_divergence target tol =
          Except.ok (some (max beta (10 / 10 ^ 16))))) ∧
    update_adaptive_kl_beta (some 1) [2 / 100] (1 / 100) (3 / 10) =
      Except.ok (some (3 / 2)) ∧
    update_adaptive_kl_beta (some 1) [3 / 1000] (1 / 100) (3 / 10) =
      Except.ok (some (2 / 3)) ∧
    update_adaptive_kl_beta (some 1) [1 / 100] (1 / 100) (3 / 10) =
      Except.ok (some 1) := by
  refine ⟨?_, ?_, ?_, ?_⟩
  · intro beta kl target tol htol
    have hexcl : ¬(mean kl < target * (1 - tol) ∧
        target * (1 + tol) < mean kl) := by
      rintro ⟨h1, h2⟩
      nlinarith
    refine ⟨?_, ?_, ?_⟩
    · intro hbelow
      simp only [update_adaptive_kl_beta, if_neg hexcl, if_pos hbelow]
    · intro habove
      have hnb : ¬mean kl < target * (1 - tol) := by nlinarith
      simp only [update_adaptive_kl_beta, if_neg hexcl, if_neg hnb, if_pos habove]
    · intro hnb hna
      simp only [update_adaptive_kl_beta, if_neg hexcl, if_neg hnb, if_neg hna,
        mul_one]
  · norm_num [update_adaptive_kl_beta, mean, max_def]
  · norm_num [update_adaptive_kl_beta, mean, max_def]
  · norm_num [update_adaptive_kl_beta, mean, max_def]

/-- Witness for C5 at beta `2`, mean KL `0` below the band of target `0.01`
with tolerance `0.3`. -/
theorem update_adaptive_kl_beta_amended_witness :
    update_adaptive_kl_beta (some 2) [0] (1 / 100) (3 / 10) =
      Except.ok (some (max (2 * (1 / (3 / 2))) (10 / 10 ^ 16))) :=
  (update_adaptive_kl_beta_amended.1 2 [0] (1 / 100) (3 / 10) (by norm_num)).1
    (by norm_num [mean])

/-- C6 counterexample: with one epoch, an identity weight update, stored-vs-new
KL divergence `[0, 2]` and validity mask `[1, 0]`, the beta actually stored by
the training call is `3/2` (the source feeds the UNMASKED mean KL `1`, above
the band, to the update), whereas updating from the mask-weighted KL divergence
as the claim states would give `2/3` (masked mean `0`, below the band). -/
theorem train_kl_mask_counterexample :
    Except.map (fun p => p.1.adaptive_kl_beta)
      (train_from_experience
        (⟨1, id, fun _ _ => [0, 2], 1 / 100, 3 / 10, fun s _ => s, fun s _ => s⟩ :
          PPOEnv Unit Unit Unit Unit Unit Unit)
        ⟨(), some 1, (), ()⟩ () () () [1, 0]) = Except.ok (some (3 / 2)) ∧
    update_adaptive_kl_beta (some 1)
        (List.zipWith (fun k m => k * m) [0, 2] [1, 0]) (1 / 100) (3 / 10) =
      Except.ok (some (2 / 3)) ∧
    (some (3 / 2) : Option ℚ) ≠ some (2 / 3) := by
  refine ⟨?_, ?_, by norm_num⟩
  · norm_num [train_from_experience, run_epochs, update_adaptive_kl_beta, mean,
      max_def, Except.map]
  · norm_num [update_adaptive_kl_beta, mean, max_def]

/-- C6 amended: in every training call (with a non-degenerate tolerance band so
the exclusive branch dispatch cannot fail), only after the final epoch's weight
update is the KL divergence between the originally-stored old distribution and
the distribution under the fully-updated weights recomputed — with NO validity
mask applied on this path — and fed to the adaptive-KL beta update; only after
that beta update are the observation and reward normalizer statistics updated,
and they are updated from the batch's raw, pre-normalization observation and
reward values. -/
theorem train_from_experience_amended :
    ∀ {W P O R S T : Type} (env : PPOEnv W P O R S T) (st : PPOTrainState W S T)
      (params : P) (obs : O) (rew : R) (valid_mask : List ℚ),
      0 ≤ env.adaptive_kl_target * env.adaptive_kl_tolerance →
      ∃ (st2 : PPOTrainState W S T) (tr : List TrainEvent),
        train_from_experience env st params obs rew valid_mask =
          Except.ok (st2, tr) ∧
        st2.weights = env.train_epoch^[env.num_epochs] st.weights ∧
        update_adaptive_kl_beta st.adaptive_kl_beta
            (env.kl_divergence params (env.train_epoch^[env.num_epochs] st.weights))
            env.adaptive_kl_target env.adaptive_kl_tolerance =
          Except.ok st2.adaptive_kl_beta ∧
        st2.obs_stats = env.obs_update st.obs_stats obs ∧
        st2.reward_stats = env.reward_update st.reward_stats rew ∧
        tr = (List.range env.num_epochs).map TrainEvent.epochUpdate ++
          [TrainEvent.adaptiveKlBetaUpdate, TrainEvent.obsNormUpdate,
            TrainEvent.rewardNormUpdate] := by
  intro W P O R S T env st params obs rew valid_mask h
  obtain ⟨b, hb⟩ := update_adaptive_kl_beta_isOk st.adaptive_kl_beta
    (env.kl_divergence params (env.train_epoch^[env.num_epochs] st.weights))
    env.adaptive_kl_target env.adaptive_kl_tolerance h
  refine ⟨⟨env.train_epoch^[env.num_epochs] st.weights, b,
    env.obs_update st.obs_stats obs, env.reward_update st.reward_stats rew⟩,
    (List.range env.num_epochs).map TrainEvent.epochUpdate ++
      [TrainEvent.adaptiveKlBetaUpdate, TrainEvent.obsNormUpdate,
        TrainEvent.rewardNormUpdate], ?_, rfl, hb, rfl, rfl, rfl⟩
  simp only [train_from_experience, run_epochs_fst, run_epochs_snd, hb]

/-- Witness for C6 with two identity epochs on trivial state. -/
theorem train_from_experience_amended_witness :
    ∃ (st2 : PPOTrainState Unit Unit Unit) (tr : List TrainEvent),
      train_from_experience
          (⟨2, id, fun _ _ => [1 / 100], 1 / 100, 3 / 10, fun s _ => s,
            fun s _ => s⟩ : PPOEnv Unit Unit Unit Unit Unit Unit)
          ⟨(), some 1, (), ()⟩ () () () [1] = Except.ok (st2, tr) ∧
      st2.weights = (id : Unit → Unit)^[2] () ∧
      update_adaptive_kl_beta (some 1) [1 / 100] (1 / 100) (3 / 10) =
        Except.ok st2.adaptive_kl_beta ∧
      st2.obs_stats = () ∧
      st2.reward_stats = () ∧
      tr = (List.range 2).map TrainEvent.epochUpdate ++
        [TrainEvent.adaptiveKlBetaUpdate, TrainEvent.obsNormUpdate,
          TrainEvent.rewardNormUpdate] :=
  train_from_experience_amended
    (⟨2, id, fun _ _ => [1 / 100], 1 / 100, 3 / 10, fun s _ => s, fun s _ => s⟩ :
      PPOEnv Unit Unit Unit Unit Unit Unit)
    ⟨(), some 1, (), ()⟩ () () () [1] (by norm_num)

/-- C7 counterexample: with `lambda = 1`, rewards `[1]`, discounts `[1]`
containing no zero (a single unbroken, truncated episode) and value
predictions `[0, 1]` whose final bootstrap entry is nonzero, the Monte Carlo
returns are `[1]`, the GAE advantage is `[2]`, but returns minus value
predictions is `[1]`: the claimed equality fails. -/
theorem gae_mc_counterexample :
    (∀ d ∈ ([1] : List ℚ), d ≠ 0) ∧
    compute_returns [1] [1] (10 ^ 6) = Except.ok [1] ∧
    compute_advantages true 1 [1] [1] [1] [0, 1] = [2] ∧
    List.zipWith (fun r v => r - v) [1] (([0, 1] : List ℚ).dropLast) = [1] ∧
    ([2] : List ℚ) ≠ [1] := by
  refine ⟨by norm_num, ?_, ?_, by norm_num, by norm_num⟩
  · norm_num [compute_returns, revScan]
  · norm_num [compute_advantages, zipWith4, revScan]

/-- C7 amended: when `lambda = 1`, no entry of the discounts is zero, and the
final bootstrap value prediction is zero, the GAE-based advantage equals
returns minus the value predictions over the timesteps excluding the final
bootstrap entry (exactly, in the exact-arithmetic model). -/
theorem gae_mc_equivalence_amended :
    ∀ (rewards discounts value_preds : List ℚ) (e : ℚ) (R : List ℚ),
      discounts.length = rewards.length →
      value_preds.length = rewards.length + 1 →
      (∀ d ∈ discounts, d ≠ 0) →
      value_preds.getD rewards.length 0 = 0 →
      compute_returns rewards discounts e = Except.ok R →
      compute_advantages true 1 rewards R discounts value_preds =
        List.zipWith (fun r v => r - v) R value_preds.dropLast := by
  intro rewards discounts value_preds e R hd hv _hnz hboot hret
  rw [compute_returns, if_pos hd.symm] at hret
  injection hret with hR
  subst hR
  exact gae_scan_lambda_one rewards discounts value_preds hd hv hboot

/-- Witness for C7 at rewards `[1,1]`, discounts `[1/2,1/2]`, value
predictions `[5,7,0]`. -/
theorem gae_mc_equivalence_amended_witness :
    compute_advantages true 1 [1, 1] [3 / 2, 1] [1 / 2, 1 / 2] [5, 7, 0] =
      List.zipWith (fun r v => r - v) [3 / 2, 1] (([5, 7, 0] : List ℚ).dropLast) :=
  gae_mc_equivalence_amended [1, 1] [1 / 2, 1 / 2] [5, 7, 0] (10 ^ 6) [3 / 2, 1]
    rfl rfl (by norm_num) (by norm_num)
    (by norm_num [compute_returns, revScan])

/-- C8: for each masked loss term (policy-gradient, value-estimation,
entropy-regularization, KL-penalty), a validity mask of all ones yields exactly
the loss with no mask applied, and a mask of all zeros yields exactly zero (for
the KL penalty, under the standing configuration assumption that the adaptive
KL target is nonnegative, without which the cutoff penalty of an all-zero mean
would not vanish). -/
theorem masking_neutrality :
    ∀ (expf : ℚ → ℚ) (c eps coefV coefE fK cK tK : ℚ) (beta : Option ℚ)
      (ns os as returns value_preds entropy kl : List ℚ),
      os.length = ns.length → as.length = ns.length →
      value_preds.length = returns.length → 0 ≤ tK →
      (policy_gradient_loss expf c eps ns os as (List.replicate ns.length 1) =
        policy_gradient_loss_nomask expf c eps ns os as) ∧
      policy_gradient_loss expf c eps ns os as (List.replicate ns.length 0) = 0 ∧
      (value_estimation_loss coefV returns value_preds
          (List.replicate returns.length 1) =
        value_estimation_loss_nomask coefV returns value_preds) ∧
      value_estimation_loss coefV returns value_preds
        (List.replicate returns.length 0) = 0 ∧
      (entropy_regularization_loss coefE entropy
          (List.replicate entropy.length 1) =
        entropy_regularization_loss_nomask coefE entropy) ∧
      entropy_regularization_loss coefE entropy
        (List.replicate entropy.length 0) = 0 ∧
      (kl_penalty_loss fK cK tK beta kl (List.replicate kl.length 1) =
        kl_penalty_loss_nomask fK cK tK beta kl) ∧
      kl_penalty_loss fK cK tK beta kl (List.replicate kl.length 0) = 0 := by
  intro expf c eps coefV coefE fK cK tK beta ns os as returns value_preds entropy kl
    hos has hV htK
  have hZ : (zipWith3 (fun n o a => pg_objective_spec expf c eps n o a)
      ns os as).length = ns.length := by
    rw [zipWith3_length, hos, has]; simp
  have hW : (List.zipWith (fun r v => (r - v) ^ 2) returns value_preds).length =
      returns.length := by
    rw [List.length_zipWith, hV]; simp
  refine ⟨?_, ?_, ?_, ?_, ?_, ?_, ?_, ?_⟩
  · rw [policy_gradient_loss_eq_spec, policy_gradient_loss_nomask_eq_spec, ← hZ,
      zipWith_mul_one]
  · rw [policy_gradient_loss_eq_spec, zipWith_mul_zero, mean_replicate_zero,
      neg_zero]
  · rw [value_estimation_loss, value_estimation_loss_nomask, ← hW, zipWith_mul_one]
  · rw [value_estimation_loss, zipWith_mul_zero, mean_replicate_zero, zero_mul]
  · by_cases hce : 0 < coefE
    · rw [entropy_regularization_loss, entropy_regularization_loss_nomask,
        if_pos hce, if_pos hce, zipWith_negmul_one]
    · rw [entropy_regularization_loss, entropy_regularization_loss_nomask,
        if_neg hce, if_neg hce]
  · by_cases hce : 0 < coefE
    · rw [entropy_regularization_loss, if_pos hce, zipWith_negmul_zero,
        mean_replicate_zero, zero_mul]
    · rw [entropy_regularization_loss, if_neg hce]
  · show kl_cutoff_loss fK cK tK (List.zipWith (fun k m => k * m) kl
        (List.replicate kl.length 1)) + _ = _
    rw [zipWith_mul_one]
    rfl
  · show kl_cutoff_loss fK cK tK (List.zipWith (fun k m => k * m) kl
        (List.replicate kl.length 0)) +
      adaptive_kl_loss beta (List.zipWith (fun k m => k * m) kl
        (List.replicate kl.length 0)) = 0
    rw [zipWith_mul_zero]
    have hcut : kl_cutoff_loss fK cK tK (List.replicate (min kl.length kl.length) 0)
        = 0 := by
      by_cases hf : fK ≤ 0
      · rw [kl_cutoff_loss, if_pos hf]
      · rw [kl_cutoff_loss, if_neg hf, mean_replicate_zero]
        have hprod : 0 ≤ fK * tK :=
          mul_nonneg (le_of_lt (lt_of_not_le hf)) htK
        rw [max_eq_right (by linarith)]
        ring
    have hada : adaptive_kl_loss beta (List.replicate (min kl.length kl.length) 0)
        = 0 := by
      cases beta with
      | none => rfl
      | some b => rw [adaptive_kl_loss, mean_replicate_zero, mul_zero]
    rw [hcut, hada, add_zero]

/-- Witness for C8 at concrete one-element inputs. -/
theorem masking_neutrality_witness :
    (policy_gradient_loss (fun x => x) 1 (1 / 5) [2] [1] [1]
        (List.replicate ([2] : List ℚ).length 1) =
      policy_gradient_loss_nomask (fun x => x) 1 (1 / 5) [2] [1] [1]) ∧
    policy_gradient_loss (fun x => x) 1 (1 / 5) [2] [1] [1]
      (List.replicate ([2] : List ℚ).length 0) = 0 ∧
    (value_estimation_loss (1 / 2) [3] [2]
        (List.replicate ([3] : List ℚ).length 1) =
      value_estimation_loss_nomask (1 / 2) [3] [2]) ∧
    value_estimation_loss (1 / 2) [3] [2]
      (List.replicate ([3] : List ℚ).length 0) = 0 ∧
    (entropy_regularization_loss (1 / 10) [4]
        (List.replicate ([4] : List ℚ).length 1) =
      entropy_regularization_loss_nomask (1 / 10) [4]) ∧
    entropy_regularization_loss (1 / 10) [4]
      (List.replicate ([4] : List ℚ).length 0) = 0 ∧
    (kl_penalty_loss 2 1000 (1 / 100) (some 1) [5]
        (List.replicate ([5] : List ℚ).length 1) =
      kl_penalty_loss_nomask 2 1000 (1 / 100) (some 1) [5]) ∧
    kl_penalty_loss 2 1000 (1 / 100) (some 1) [5]
      (List.replicate ([5] : List ℚ).length 0) = 0 :=
  masking_neutrality (fun x => x) 1 (1 / 5) (1 / 2) (1 / 10) 2 1000 (1 / 100)
    (some 1) [2] [1] [1] [3] [2] [4] [5] rfl rfl rfl (by norm_num)

/-- C9: `compute_returns` requires equal shapes for rewards and discounts;
whenever the lengths differ it fails with the shape-mismatch error and no scan
result is produced (the `Except` value is an error, not an `ok` scan output). -/
theorem compute_returns_shape_check :
    ∀ (rewards discounts : List ℚ) (e : ℚ), rewards.length ≠ discounts.length →
      compute_returns rewards discounts e =
        Except.error "rewards should have the same shape as discounts." := by
  intro rewards discounts e h
  simp [compute_returns, h]

/-- Witness for C9 at rewards `[1]`, discounts `[]`. -/
theorem compute_returns_shape_check_witness :
    compute_returns [1] [] 0 =
      Except.error "rewards should have the same shape as discounts." :=
  compute_returns_shape_check [1] [] 0 (by simp)

/-- C10: the result of `compute_returns` does not depend on its
`norm_variance_epsilon` argument: the parameter is accepted (documented in the
source as the variance epsilon for normalizing returns) but no normalization is
ever applied. -/
theorem compute_returns_ignores_norm_variance_epsilon :
    ∀ (rewards discounts : List ℚ) (e1 e2 : ℚ),
      compute_returns rewards discounts e1 = compute_returns rewards discounts e2 := by
  intro rewards discounts e1 e2
  rfl

end PPO
